import Mathlib

/-!
Verification of the LLM invocation core of the SYNTHESIS open-source agent
framework: the provider abstraction (`llm_providers.py`), the agent runtime
(`base_agent.py`) and the orchestrator (`orchestrator.py`).

The Python code is shallowly embedded: pure computations become Lean
functions, mutation of `self` becomes explicit state passing, a raised
Python exception becomes `Except.error`, network and clock effects become
oracle parameters (a function giving the outcome of each outbound call),
and `Optional[T]` becomes `Option T`.  Python `float` temperatures and
timestamps are modelled as rationals.
-/

namespace AgentSpec

/-- Python rendering of an `Optional[str]` inside an f-string:
`None` prints as the text `"None"`. -/
def pyOptStr : Option String → String
  | none => "None"
  | some s => s

/-- Python `d.get(key, 0)` on a `Dict[str, int]`, modelled as an
association list looked up front to back. -/
def usageGet (d : List (String × Nat)) (key : String) : Nat :=
  match d.find? (fun p => p.1 = key) with
  | some p => p.2
  | none => 0

/-- `LLMMessage` from `llm_providers.py`: a role-tagged conversation turn. -/
structure LLMMessage where
  role : String
  content : String
  name : Option String := none
deriving DecidableEq, Repr

/-- `LLMResponse` from `llm_providers.py`: the normalized provider result. -/
structure LLMResponse where
  success : Bool
  content : String
  model : String
  provider : String
  usage : List (String × Nat) := []
  error : Option String := none
  raw_response : Option String := none
deriving DecidableEq, Repr

/-- JSON values, used to model Python `json.loads` results and the
`Dict[str, Any]` parameter descriptors of tools. Numbers are modelled as
integers; none of the verified code paths manipulates fractional JSON
numbers. -/
inductive JsonVal where
  | null : JsonVal
  | bool (b : Bool) : JsonVal
  | num (n : Int) : JsonVal
  | str (s : String) : JsonVal
  | arr (items : List JsonVal) : JsonVal
  | obj (fields : List (String × JsonVal)) : JsonVal
deriving Repr

/-- `ToolDefinition` from `llm_providers.py`. -/
structure ToolDefinition where
  name : String
  description : String
  parameters : JsonVal
deriving Repr

/-- The keyword arguments of `BaseLLMProvider.chat`, with the source's
default values. -/
structure ChatArgs where
  model : Option String := none
  temperature : ℚ := 3 / 10
  max_tokens : Nat := 4000
  tools : Option (List ToolDefinition) := none
  json_mode : Bool := false

/-- Outcome of one `get_provider(name).chat(messages, **kwargs)` attempt
inside `chat_with_fallback`; `Except.error` models a raised exception
(from `get_provider` or from `chat`). -/
def ChatOracle : Type := String → List LLMMessage → ChatArgs → Except String LLMResponse

/-- Whether provider `p`'s attempt counts as a failure in
`chat_with_fallback`: its `chat` raised, or returned `success=False`. -/
def attemptFailsB (chat : ChatOracle) (messages : List LLMMessage) (args : ChatArgs)
    (p : String) : Bool :=
  match chat p messages args with
  | .ok r => !r.success
  | .error _ => true

/-- The error string recorded for a failing provider `p` by
`chat_with_fallback`: `f"{provider_name}: {response.error}"` in the
`success=False` case and `f"{provider_name}: {str(e)}"` in the raised
case. -/
def fallbackErrorEntry (chat : ChatOracle) (messages : List LLMMessage) (args : ChatArgs)
    (p : String) : String :=
  match chat p messages args with
  | .ok r => p ++ ": " ++ pyOptStr r.error
  | .error e => p ++ ": " ++ e

/-- The aggregated failure response built at the end of
`chat_with_fallback` when every provider failed. -/
def allFailedResponse (errors : List String) : LLMResponse :=
  { success := false, content := "", model := "", provider := "",
    error := some ("All providers failed: " ++ String.intercalate "; " errors) }

/-- The `for provider_name in providers` loop of `chat_with_fallback`,
threading the accumulated `errors` list.  The second component of the
result is the list of providers actually invoked, in order (an
observation of the loop, used to state that no provider after the first
success is tried). -/
def chatWithFallbackGo (chat : ChatOracle) (messages : List LLMMessage) (args : ChatArgs) :
    List String → List String → LLMResponse × List String
  | [], errors => (allFailedResponse errors, [])
  | p :: rest, errors =>
    match chat p messages args with
    | .ok r =>
      if r.success then (r, [p])
      else
        let next := chatWithFallbackGo chat messages args rest
          (errors ++ [p ++ ": " ++ pyOptStr r.error])
        (next.1, p :: next.2)
    | .error e =>
      let next := chatWithFallbackGo chat messages args rest (errors ++ [p ++ ": " ++ e])
      (next.1, p :: next.2)

/-- `chat_with_fallback` from `llm_providers.py`.  `available` stands for
the result of `get_available_providers()`, used when `providers` is
`None`; an empty provider list yields the `"No providers available"`
failure.  Returns the response together with the list of providers
invoked. -/
def chat_with_fallback (chat : ChatOracle) (available : List String)
    (messages : List LLMMessage) (providers : Option (List String)) (args : ChatArgs) :
    LLMResponse × List String :=
  let ps := providers.getD available
  if ps.isEmpty then
    ({ success := false, content := "", model := "", provider := "",
       error := some "No providers available" }, [])
  else
    chatWithFallbackGo chat messages args ps []

/-- Witness for C1 at a concrete input: the first provider raises, the
second fails with `success=False`, the third succeeds, the fourth is a
sentinel that must not be invoked. -/
def c1Chat : ChatOracle := fun p _ _ =>
  if p = "openai" then Except.error "connection refused"
  else if p = "anthropic" then
    Except.ok { success := false, content := "", model := "claude", provider := "anthropic",
                error := some "HTTP 401: bad key" }
  else if p = "google" then
    Except.ok { success := true, content := "hello from gemini", model := "gemini",
                provider := "google" }
  else
    Except.ok { success := true, content := "NEVER", model := "m", provider := p }

/-- Witness for C2 at a concrete input: two providers, one raising and
one returning `success=False`. -/
def c2Chat : ChatOracle := fun p _ _ =>
  if p = "openai" then Except.error "timeout"
  else Except.ok { success := false, content := "", model := "m", provider := p,
                   error := some "HTTP 500: oops" }

/-! ## JSON parsing (`json.loads` model) and `BaseAgent.parse_json_response`

`parse_json_response` in `base_agent.py` strips markdown fences, attempts a
strict `json.loads`, then falls back to a balanced-brace scan, and finally
to a raw-passthrough dictionary.  `json.loads` is modelled by a recursive
descent parser over the JSON grammar (integer numerals only — no verified
code path produces fractional JSON numbers); the exact diagnostic text of
a Python `JSONDecodeError` is not modelled, only that a parse failure
carries some diagnostic string. -/

/-- ASCII whitespace as stripped by Python `str.strip()` (the code never
feeds it the rarer unicode whitespace). -/
def pyWs (c : Char) : Bool :=
  c = ' ' || c = '\t' || c = '\n' || c = '\r' || c = '\x0b' || c = '\x0c'

/-- Python `s.strip()`. -/
def pyStrip (s : String) : String :=
  String.mk (((s.data.dropWhile pyWs).reverse.dropWhile pyWs).reverse)

/-- JSON whitespace, as skipped by Python's `json` scanner. -/
def jsonWs (c : Char) : Bool := c = ' ' || c = '\t' || c = '\n' || c = '\r'

/-- Drop leading JSON whitespace. -/
def skipWs : List Char → List Char
  | [] => []
  | c :: rest => if jsonWs c then skipWs rest else c :: rest

/-- Value of one hexadecimal digit. -/
def parseHexDigit (c : Char) : Option Nat :=
  if c.isDigit then some (c.toNat - 48)
  else if 'a' ≤ c && c ≤ 'f' then some (c.toNat - 87)
  else if 'A' ≤ c && c ≤ 'F' then some (c.toNat - 55)
  else none

/-- Body of a JSON string after the opening quote, with the usual escape
sequences; returns the decoded string and the input after the closing
quote. -/
def parseStringGo : List Char → List Char → Except String (String × List Char)
  | [], _ => .error "Unterminated string"
  | '"' :: rest, acc => .ok (String.mk acc.reverse, rest)
  | '\\' :: '"' :: rest, acc => parseStringGo rest ('"' :: acc)
  | '\\' :: '\\' :: rest, acc => parseStringGo rest ('\\' :: acc)
  | '\\' :: '/' :: rest, acc => parseStringGo rest ('/' :: acc)
  | '\\' :: 'b' :: rest, acc => parseStringGo rest (Char.ofNat 8 :: acc)
  | '\\' :: 'f' :: rest, acc => parseStringGo rest (Char.ofNat 12 :: acc)
  | '\\' :: 'n' :: rest, acc => parseStringGo rest ('\n' :: acc)
  | '\\' :: 'r' :: rest, acc => parseStringGo rest ('\r' :: acc)
  | '\\' :: 't' :: rest, acc => parseStringGo rest ('\t' :: acc)
  | '\\' :: 'u' :: h1 :: h2 :: h3 :: h4 :: rest, acc =>
    (match parseHexDigit h1, parseHexDigit h2, parseHexDigit h3, parseHexDigit h4 with
     | some a, some b, some c, some d =>
       parseStringGo rest (Char.ofNat (((a * 16 + b) * 16 + c) * 16 + d) :: acc)
     | _, _, _, _ => .error "Invalid unicode escape")
  | '\\' :: _, _ => .error "Invalid escape"
  | c :: rest, acc => parseStringGo rest (c :: acc)

/-- Decimal digits to a natural number. -/
def digitsToNat : List Char → Nat → Nat
  | [], acc => acc
  | c :: rest, acc => digitsToNat rest (acc * 10 + (c.toNat - 48))

/-- An integer JSON numeral (after an optional leading minus sign, which
the caller has consumed when `neg` is set). -/
def parseIntNumeral (neg : Bool) (cs : List Char) : Except String (JsonVal × List Char) :=
  let ds := cs.takeWhile (fun c => c.isDigit)
  let rest := cs.dropWhile (fun c => c.isDigit)
  if ds.isEmpty then .error "Expecting value"
  else
    match rest with
    | '.' :: _ => .error "Fractional numbers outside model"
    | 'e' :: _ => .error "Exponent numbers outside model"
    | 'E' :: _ => .error "Exponent numbers outside model"
    | _ =>
      let n : Int := Int.ofNat (digitsToNat ds 0)
      .ok (.num (if neg then -n else n), rest)

/-- The member loop of a JSON object: `"key": value` pairs separated by
commas, ending at the closing brace.  `pv` parses one value (it is
instantiated with the value parser at the enclosing nesting budget). -/
def parseMembersF (pv : List Char → Except String (JsonVal × List Char)) :
    Nat → List Char → List (String × JsonVal) → Except String (JsonVal × List Char)
  | 0, _, _ => .error "Object too long"
  | fuel + 1, cs, acc =>
    match skipWs cs with
    | '"' :: rest =>
      (match parseStringGo rest [] with
       | .error e => .error e
       | .ok (key, rest1) =>
         match skipWs rest1 with
         | ':' :: rest2 =>
           (match pv rest2 with
            | .error e => .error e
            | .ok (v, rest3) =>
              match skipWs rest3 with
              | ',' :: rest4 => parseMembersF pv fuel rest4 (acc ++ [(key, v)])
              | '}' :: rest4 => .ok (.obj (acc ++ [(key, v)]), rest4)
              | _ => .error "Expecting delimiter")
         | _ => .error "Expecting colon delimiter")
    | _ => .error "Expecting property name"

/-- The item loop of a JSON array. -/
def parseItemsF (pv : List Char → Except String (JsonVal × List Char)) :
    Nat → List Char → List JsonVal → Except String (JsonVal × List Char)
  | 0, _, _ => .error "Array too long"
  | fuel + 1, cs, acc =>
    match pv cs with
    | .error e => .error e
    | .ok (v, rest) =>
      match skipWs rest with
      | ',' :: rest1 => parseItemsF pv fuel rest1 (acc ++ [v])
      | ']' :: rest1 => .ok (.arr (acc ++ [v]), rest1)
      | _ => .error "Expecting delimiter"

/-- One JSON value; `fuel` bounds the nesting depth (each descent consumes
at least one input character, so a budget of input length + 1 never runs
out on input Python's parser would accept within its recursion limit). -/
def parseJ : Nat → List Char → Except String (JsonVal × List Char)
  | 0, _ => .error "Nesting too deep"
  | fuel + 1, cs =>
    match skipWs cs with
    | [] => .error "Expecting value"
    | '{' :: rest =>
      (match skipWs rest with
       | '}' :: rest1 => .ok (.obj [], rest1)
       | other => parseMembersF (parseJ fuel) (other.length + 1) other [])
    | '[' :: rest =>
      (match skipWs rest with
       | ']' :: rest1 => .ok (.arr [], rest1)
       | other => parseItemsF (parseJ fuel) (other.length + 1) other [])
    | '"' :: rest =>
      (match parseStringGo rest [] with
       | .error e => .error e
       | .ok (s, rest1) => .ok (.str s, rest1))
    | 't' :: 'r' :: 'u' :: 'e' :: rest => .ok (.bool true, rest)
    | 'f' :: 'a' :: 'l' :: 's' :: 'e' :: rest => .ok (.bool false, rest)
    | 'n' :: 'u' :: 'l' :: 'l' :: rest => .ok (.null, rest)
    | '-' :: rest => parseIntNumeral true rest
    | c :: rest => if c.isDigit then parseIntNumeral false (c :: rest) else .error "Expecting value"

/-- Model of Python `json.loads`: parse one value and require only
whitespace to remain, else `Extra data`. -/
def json_loads (s : String) : Except String JsonVal :=
  match parseJ (s.length + 1) s.toList with
  | .error e => .error e
  | .ok (v, rest) => if (skipWs rest).isEmpty then .ok v else .error "Extra data"

/-- Search `needle` in a character list, returning the absolute index of
the first occurrence (the counter starts at `start`); models Python
`str.find` restricted to the found case. -/
def findSubGo (needle : List Char) : List Char → Nat → Option Nat
  | [], i => if needle.isEmpty then some i else none
  | c :: rest, i =>
    if needle.isPrefixOf (c :: rest) then some i else findSubGo needle rest (i + 1)

/-- Python `hay.find(needle, start)` in the found case: the absolute index
of the first occurrence of `needle` at or after `start`. -/
def findFrom (hay needle : String) (start : Nat) : Option Nat :=
  findSubGo needle.toList (hay.toList.drop start) start

/-- Python slicing `s[a:b]` for `a ≤ b` within bounds. -/
def pySlice (s : String) (a b : Nat) : String :=
  String.mk ((s.toList.drop a).take (b - a))

/-- The matching close of an opening brace: given the characters after a
`'{'` and the current depth, the number of characters up to and including
the brace that brings the depth back to zero (Python's inner scan loop of
`parse_json_response`). -/
def findClose : List Char → Nat → Option Nat
  | [], _ => none
  | c :: rest, depth =>
    if c = '{' then (findClose rest (depth + 1)).map (· + 1)
    else if c = '}' then
      (if depth = 1 then some 1 else (findClose rest (depth - 1)).map (· + 1))
    else (findClose rest depth).map (· + 1)

/-- The balanced-brace recovery scan of `parse_json_response`: at each
position holding `'{'`, find the balanced `{...}` span and try to parse
it; on parse failure (or an unbalanced span) resume scanning at the next
position. -/
def braceScanGo : List Char → Option JsonVal
  | [] => none
  | c :: rest =>
    if c = '{' then
      match findClose rest 1 with
      | some len =>
        (match json_loads (String.mk ('{' :: rest.take len)) with
         | .ok v => some v
         | .error _ => braceScanGo rest)
      | none => braceScanGo rest
    else braceScanGo rest

/-- The fence-stripping step of `parse_json_response`: extract the body of
a ```` ```json ```` fence, else of a bare ```` ``` ```` fence, else leave
the content unchanged. -/
def stripFence (content : String) : String :=
  match findFrom content "```json" 0 with
  | some idx =>
    let s := idx + 7
    (match findFrom content "```" s with
     | some e => if s < e then pyStrip (pySlice content s e) else content
     | none => content)
  | none =>
    match findFrom content "```" 0 with
    | some idx =>
      let s := idx + 3
      (match findFrom content "```" s with
       | some e => if s < e then pyStrip (pySlice content s e) else content
       | none => content)
    | none => content

/-- `BaseAgent.parse_json_response` from `base_agent.py`: strip, unfence,
strict parse, balanced-brace recovery, raw-passthrough fallback.  Total by
construction — every Python exception in the source is caught inside the
function. -/
def parse_json_response (rawContent : String) : JsonVal :=
  let content := stripFence (pyStrip rawContent)
  match json_loads content with
  | .ok v => v
  | .error e =>
    match braceScanGo content.toList with
    | some v => v
    | none => .obj [("raw_content", .str content), ("parse_error", .str e)]

/-- Field lookup in a JSON object value. -/
def objGet (v : JsonVal) (key : String) : Option JsonVal :=
  match v with
  | .obj fields => (fields.find? (fun p => p.1 = key)).map (fun p => p.2)
  | _ => none

/-! ## Agent memory (`AgentMemory` in `base_agent.py`) -/

/-- `MemoryEntry` from `base_agent.py`.  The `Dict[str, Any]` metadata is
modelled as a string-valued association list (no verified code path reads
it). -/
structure MemoryEntry where
  role : String
  content : String
  timestamp : ℚ
  metadata : List (String × String) := []
deriving DecidableEq, Repr

/-- The state of an `AgentMemory` instance: its entry log, both caps, and
the running `_token_estimate`. -/
structure AgentMemory where
  entries : List MemoryEntry := []
  max_entries : Nat := 50
  max_tokens : Nat := 8000
  token_estimate : Int := 0
deriving DecidableEq, Repr

/-- The rough per-entry token estimate `len(content) // 4`. -/
def tokenEst (content : String) : Int := Int.ofNat (content.length / 4)

/-- The `while len(self.entries) > self.max_entries` trim loop of
`AgentMemory.add`: pop from the front, decrementing the token estimate by
the removed entry's estimate. -/
def trimEntries (maxE : Nat) : List MemoryEntry → Int → List MemoryEntry × Int
  | [], est => ([], est)
  | e :: rest, est =>
    if maxE < (e :: rest).length then trimEntries maxE rest (est - tokenEst e.content)
    else (e :: rest, est)

/-- `AgentMemory.add` from `base_agent.py`: append the new entry, bump the
token estimate, then trim on the entry-count cap.  `ts` stands for
`time.time()`. -/
def AgentMemory.add (m : AgentMemory) (role content : String) (ts : ℚ)
    (metadata : List (String × String) := []) : AgentMemory :=
  let entry : MemoryEntry := { role := role, content := content, timestamp := ts,
                               metadata := metadata }
  let appended := m.entries ++ [entry]
  let est := m.token_estimate + tokenEst content
  let trimmed := trimEntries m.max_entries appended est
  { m with entries := trimmed.1, token_estimate := trimmed.2 }

/-- `AgentMemory.get_context`: the memory rendered as LLM messages,
optionally restricted to the last `n` entries (`entries[-n:] if last_n`). -/
def AgentMemory.get_context (m : AgentMemory) (last_n : Option Nat := none) :
    List LLMMessage :=
  let entries :=
    match last_n with
    | some n => if n = 0 then m.entries else m.entries.drop (m.entries.length - n)
    | none => m.entries
  entries.map (fun e => { role := e.role, content := e.content : LLMMessage })

/-- `AgentMemory.clear`. -/
def AgentMemory.clear (m : AgentMemory) : AgentMemory :=
  { m with entries := [], token_estimate := 0 }

/-- Sum of the per-entry token estimates of a list of entries. -/
def memSum : List MemoryEntry → Int
  | [] => 0
  | e :: rest => tokenEst e.content + memSum rest

def c4Mem : AgentMemory :=
  { entries := [], max_entries := 2, max_tokens := 8000, token_estimate := 0 }

/-! ## Agent runtime: metrics, retry policy, `think`, `safe_execute` -/

/-- `ExecutionMetrics` from `base_agent.py`; timestamps and durations are
rationals standing for Python floats. -/
structure ExecutionMetrics where
  start_time : ℚ := 0
  end_time : ℚ := 0
  duration_ms : ℚ := 0
  tokens_input : Nat := 0
  tokens_output : Nat := 0
  tokens_total : Nat := 0
  model_used : String := ""
  provider_used : String := ""
  retries : Nat := 0
  errors : List String := []
deriving DecidableEq, Repr

/-- `AgentResult` from `base_agent.py`.  The `Dict[str, Any]` payload is
modelled as a string-valued association list (the verified core never
inspects the values, only threads them). -/
structure AgentResult where
  success : Bool
  data : List (String × String)
  message : String
  error : Option String := none
  artifacts : List String := []
  metrics : Option ExecutionMetrics := none
deriving DecidableEq, Repr

/-- The construction-time configuration of a `BaseAgent` that the LLM call
path reads. -/
structure AgentConfig where
  name : String
  system_prompt : String
  provider_name : String := "openai"
  model : Option String := none
  temperature : ℚ := 3 / 10
  max_tokens : Nat := 4000
  max_retries : Nat := 3
  tool_definitions : List ToolDefinition := []

/-- Python `x or default` on an optional rational: `None` and the falsy
`0.0` both fall back to the default. -/
def pyOrQ (o : Option ℚ) (d : ℚ) : ℚ :=
  match o with
  | some t => if t = 0 then d else t
  | none => d

/-- Python `x or default` on an optional natural: `None` and the falsy `0`
both fall back to the default. -/
def pyOrN (o : Option Nat) (d : Nat) : Nat :=
  match o with
  | some t => if t = 0 then d else t
  | none => d

/-- Python `x or default` on an optional string: `None` and the falsy `""`
both fall back to the default. -/
def pyOrS (o : Option String) (d : String) : String :=
  match o with
  | some s => if s = "" then d else s
  | none => d

/-- The backoff of `_call_with_retry`:
`wait_time = (2 ** attempt) + (0.1 * attempt)`. -/
def retryWait (attempt : Nat) : ℚ := 2 ^ attempt + (1 / 10) * attempt

/-- Outcome of the primary provider's `chat` on a given attempt (the
attempt index distinguishes the repeated calls of the retry loop);
`Except.error` models a raised exception. -/
def PrimaryOracle : Type := Nat → List LLMMessage → ChatArgs → Except String LLMResponse

/-- Whether an attempt with outcome `primary i` fails (raises or returns
`success=False`). -/
def rawAttemptFailsB (primary : Nat → Except String LLMResponse) (i : Nat) : Bool :=
  match primary i with
  | .ok r => !r.success
  | .error _ => true

/-- Whether attempt `i` against the primary provider fails (raises or
returns `success=False`). -/
def primaryAttemptFailsB (primary : PrimaryOracle) (messages : List LLMMessage)
    (args : ChatArgs) (i : Nat) : Bool :=
  rawAttemptFailsB (fun j => primary j messages args) i

/-- Observable outcome of the `for attempt in range(self.max_retries)`
loop of `_call_with_retry`: the short-circuiting successful response if
any, the number of `self.metrics.retries += 1` increments, the backoff
sleeps performed, and the attempt indices issued against the primary
provider.  (The loop's `last_error` variable feeds only a log line and is
not modelled.) -/
structure RetryLoopOut where
  response : Option LLMResponse
  retries : Nat
  waits : List ℚ
  tried : List Nat
  used_fallback : Bool := false
deriving Repr

/-- The retry loop of `_call_with_retry`.  A returned `success=True`
response short-circuits; an exception and a `success=False` response are
treated identically: increment the retry counter and, except after the
final attempt (`attempt < max_retries - 1`), sleep `retryWait attempt`. -/
def callWithRetryGo (primary : Nat → Except String LLMResponse) (max_retries : Nat) :
    Nat → Nat → Nat → List ℚ → List Nat → RetryLoopOut
  | 0, _, retries, waits, tried =>
    { response := none, retries := retries, waits := waits, tried := tried }
  | remaining + 1, attempt, retries, waits, tried =>
    let tried := tried ++ [attempt]
    match primary attempt with
    | .ok r =>
      if r.success then
        { response := some r, retries := retries, waits := waits, tried := tried }
      else
        let waits := if attempt < max_retries - 1 then waits ++ [retryWait attempt] else waits
        callWithRetryGo primary max_retries remaining (attempt + 1) (retries + 1) waits tried
    | .error _ =>
      let waits := if attempt < max_retries - 1 then waits ++ [retryWait attempt] else waits
      callWithRetryGo primary max_retries remaining (attempt + 1) (retries + 1) waits tried

/-- The keyword arguments `_call_with_retry` passes to the primary
provider's `chat`: the agent's model and tool table plus the
per-call temperature, token budget and JSON flag. -/
def primaryArgs (cfg : AgentConfig) (temperature : ℚ) (max_tokens : Nat)
    (json_mode : Bool) : ChatArgs :=
  { model := cfg.model, temperature := temperature, max_tokens := max_tokens,
    tools := if cfg.tool_definitions.isEmpty then none else some cfg.tool_definitions,
    json_mode := json_mode }

/-- The keyword arguments `_call_with_retry` passes to
`chat_with_fallback` (no model override and no tools). -/
def fallbackArgs (temperature : ℚ) (max_tokens : Nat) (json_mode : Bool) : ChatArgs :=
  { temperature := temperature, max_tokens := max_tokens, json_mode := json_mode }

/-- `BaseAgent._call_with_retry` from `base_agent.py`: up to `max_retries`
attempts against the agent's primary provider with exponential backoff,
then one pass of `chat_with_fallback` (with `providers=None`, i.e. over
the available providers) if every primary attempt failed.  Returns the
response, the updated metrics, and the loop trace. -/
def call_with_retry (cfg : AgentConfig) (primary : PrimaryOracle)
    (fallbackChat : ChatOracle) (available : List String)
    (messages : List LLMMessage) (temperature : ℚ) (max_tokens : Nat) (json_mode : Bool)
    (metrics : ExecutionMetrics) : LLMResponse × ExecutionMetrics × RetryLoopOut :=
  let args := primaryArgs cfg temperature max_tokens json_mode
  let loop := callWithRetryGo (fun i => primary i messages args) cfg.max_retries
    cfg.max_retries 0 0 [] []
  match loop.response with
  | some r => (r, { metrics with retries := metrics.retries + loop.retries },
      { loop with used_fallback := false })
  | none =>
    let fb := chat_with_fallback fallbackChat available messages none
      (fallbackArgs temperature max_tokens json_mode)
    (fb.1, { metrics with retries := metrics.retries + loop.retries },
      { loop with used_fallback := true })

/-- The backoff sleeps the retry loop performs when every attempt in
`[a, a + n)` fails: one `retryWait i` per failed attempt `i` except after
the final attempt (`i < max_retries - 1`). -/
def expectedWaits (max_retries : Nat) : Nat → Nat → List ℚ
  | _, 0 => []
  | a, n + 1 =>
    (if a < max_retries - 1 then [retryWait a] else []) ++ expectedWaits max_retries (a + 1) n

/-- Witness configuration for C3: three retries, an always-raising primary
provider, a succeeding fallback. -/
def c3Cfg : AgentConfig :=
  { name := "Tester", system_prompt := "You are a tester.", max_retries := 3 }

def c3Primary : PrimaryOracle := fun i _ _ =>
  if i = 0 then Except.error "connection reset"
  else Except.ok { success := false, content := "", model := "gpt-4o-mini",
                   provider := "openai", error := some "HTTP 429: rate limited" }

def c3Fallback : ChatOracle := fun _ _ _ =>
  Except.ok { success := true, content := "fallback reply", model := "llama3.2",
              provider := "ollama" }

/-- The mutable per-agent state the LLM call path touches: the bounded
memory and the execution metrics. -/
structure AgentState where
  memory : AgentMemory := {}
  metrics : ExecutionMetrics := {}
deriving DecidableEq, Repr

/-- The message list `BaseAgent.think` assembles: the (agent-level or
overriding) system prompt first when non-empty, then the memory context
when `use_memory` is set and the memory is non-empty, then the new user
prompt last. -/
def thinkMessages (cfg : AgentConfig) (system_prompt : Option String) (use_memory : Bool)
    (mem : AgentMemory) (prompt : String) : List LLMMessage :=
  let sysP := pyOrS system_prompt cfg.system_prompt
  (if sysP ≠ "" then [{ role := "system", content := sysP : LLMMessage }] else []) ++
  (if use_memory && !mem.entries.isEmpty then mem.get_context none else []) ++
  [{ role := "user", content := prompt }]

/-- `BaseAgent.think` from `base_agent.py`: assemble messages, call
`_call_with_retry`; on success append the user prompt and the reply to
memory (at `tsUser` and `tsAssistant`) and accumulate token metrics; on
failure record the error in the metrics and raise `RuntimeError`
(modelled as `Except.error`). -/
def think (cfg : AgentConfig) (primary : PrimaryOracle) (fallbackChat : ChatOracle)
    (available : List String) (prompt : String) (system_prompt : Option String)
    (temperature : Option ℚ) (max_tokens : Option Nat) (json_mode : Bool) (use_memory : Bool)
    (tsUser tsAssistant : ℚ) (st : AgentState) : Except String String × AgentState :=
  let messages := thinkMessages cfg system_prompt use_memory st.memory prompt
  let cr := call_with_retry cfg primary fallbackChat available messages
    (pyOrQ temperature cfg.temperature) (pyOrN max_tokens cfg.max_tokens) json_mode st.metrics
  let response := cr.1
  let metrics1 := cr.2.1
  if response.success then
    (Except.ok response.content,
     { memory := (st.memory.add "user" prompt tsUser []).add "assistant" response.content
         tsAssistant [],
       metrics := { metrics1 with
         tokens_input := metrics1.tokens_input + usageGet response.usage "prompt_tokens",
         tokens_output := metrics1.tokens_output + usageGet response.usage "completion_tokens",
         tokens_total := metrics1.tokens_total + usageGet response.usage "total_tokens",
         model_used := response.model,
         provider_used := response.provider } })
  else
    (Except.error ("LLM call failed: " ++ pyOptStr response.error),
     { memory := st.memory,
       metrics := { metrics1 with
         errors := metrics1.errors ++ [pyOrS response.error "Unknown error"] } })

/-- `BaseAgent.start_metrics`: `self.metrics = ExecutionMetrics(start_time=time.time())`. -/
def start_metrics (t : ℚ) : ExecutionMetrics := { start_time := t }

/-- `BaseAgent.end_metrics`: stamp the end time and the duration in
milliseconds. -/
def end_metrics (m : ExecutionMetrics) (t : ℚ) : ExecutionMetrics :=
  { m with end_time := t, duration_ms := (t - m.start_time) * 1000 }

/-- `BaseAgent.create_error_result`: a failed `AgentResult` carrying the
current metrics snapshot. -/
def create_error_result (metrics : ExecutionMetrics) (message error : String) : AgentResult :=
  { success := false, data := [], message := message, error := some error,
    metrics := some metrics }

/-- `BaseAgent.safe_execute` from `base_agent.py`: reset the metrics with
a start timestamp (`t0`), delegate to the agent-specific `execute`
(modelled as a state transformer that returns normally or raises), then —
on either path — finalize the metrics at `t1` and return an
`AgentResult`; a raised exception is converted via `create_error_result`. -/
def safe_execute (name : String)
    (execute : AgentState → Except String AgentResult × AgentState)
    (t0 t1 : ℚ) (st : AgentState) : AgentResult × AgentState :=
  let st0 := { st with metrics := start_metrics t0 }
  match execute st0 with
  | (.ok result, st1) => (result, { st1 with metrics := end_metrics st1.metrics t1 })
  | (.error e, st1) =>
    let m2 := end_metrics st1.metrics t1
    (create_error_result m2 (name ++ " execution failed") e, { st1 with metrics := m2 })

def c7Exec : AgentState → Except String AgentResult × AgentState :=
  fun st => (Except.error "division by zero", st)

/-- Witness state and oracles for C10: one remembered turn, a failing
primary provider and a failing fallback. -/
def c10Entry : MemoryEntry :=
  { role := "user", content := "earlier question", timestamp := 0, metadata := [] }

def c10St : AgentState :=
  { memory := { entries := [c10Entry], max_entries := 50, max_tokens := 8000,
                token_estimate := 4 } }

def c10Cfg : AgentConfig :=
  { name := "Demo", system_prompt := "You are Demo.", max_retries := 1 }

def c10Primary : PrimaryOracle := fun _ _ _ => Except.error "socket closed"

def c10Fallback : ChatOracle := fun p _ _ =>
  Except.ok { success := false, content := "", model := "m", provider := p,
              error := some "HTTP 500" }

def c10Cr : LLMResponse × ExecutionMetrics × RetryLoopOut :=
  call_with_retry c10Cfg c10Primary c10Fallback ["ollama"]
    (thinkMessages c10Cfg none true c10St.memory "new question")
    (pyOrQ none c10Cfg.temperature) (pyOrN none c10Cfg.max_tokens) false c10St.metrics

/-! ## Provider adapters (`llm_providers.py`)

Each adapter's `chat` is embedded as a function of its configuration
(whether `httpx` is importable, the credential), the message list and
arguments, and an HTTP oracle mapping the built vendor payload to either a
raised exception (`Except.error` — network failure, `response.json()`
failure, or a missing key during extraction) or a reply carrying the
status code, the raw body text, the extracted completion text, and the
vendor usage counters. -/

/-- Python truthiness of an `Optional[str]`: `None` and `""` are falsy. -/
def pyFalsyS (o : Option String) : Bool :=
  match o with
  | some s => s = ""
  | none => true

/-- Python `s[:n]`. -/
def pyTake (s : String) (n : Nat) : String := String.mk (s.data.take n)

/-- What the adapter observes of one HTTP exchange. `contentField` is the
result of extracting the completion text from the parsed vendor envelope
(`Except.error` when that extraction raises inside the `try` block). -/
structure VendorReply where
  status : Nat
  text : String
  contentField : Except String String
  usage : List (String × Nat) := []

/-- `BaseLLMProvider._format_messages`: flat role/content pairs in input
order. -/
def format_messages (messages : List LLMMessage) : List (String × String) :=
  messages.map (fun m => (m.role, m.content))

/-- The `tools` entry of an OpenAI-style payload: absent when the tool
list is `None` or empty (Python truthiness of `if tools:`).  The constant
`{"type": "function", ...}` wrapper is a fixed envelope and is not
modelled. -/
def payloadTools (tools : Option (List ToolDefinition)) : Option (List ToolDefinition) :=
  match tools with
  | some ts => if ts.isEmpty then none else some ts
  | none => none

/-- The JSON body `OpenAIProvider.chat` posts. -/
structure OpenAIPayload where
  model : String
  messages : List (String × String)
  temperature : ℚ
  max_tokens : Nat
  response_format_json : Bool
  tools : Option (List ToolDefinition)

def openaiPayload (default_model : String) (messages : List LLMMessage)
    (args : ChatArgs) : OpenAIPayload :=
  { model := pyOrS args.model default_model,
    messages := format_messages messages,
    temperature := args.temperature,
    max_tokens := args.max_tokens,
    response_format_json := args.json_mode,
    tools := payloadTools args.tools }

/-- The `for m in messages` loop of `AnthropicProvider.chat`: a `system`
role overwrites the hoisted system text (the last one wins), every other
message is appended to the turn list in order. -/
def anthropicSplitGo : List LLMMessage → Option String → List (String × String) →
    Option String × List (String × String)
  | [], sys, acc => (sys, acc)
  | m :: rest, sys, acc =>
    if m.role = "system" then anthropicSplitGo rest (some m.content) acc
    else anthropicSplitGo rest sys (acc ++ [(m.role, m.content)])

def anthropicSplit (messages : List LLMMessage) : Option String × List (String × String) :=
  anthropicSplitGo messages none []

/-- The JSON body `AnthropicProvider.chat` posts; `system` is present only
when a truthy system text was hoisted (`if system_msg:`). -/
structure AnthropicPayload where
  model : String
  messages : List (String × String)
  max_tokens : Nat
  temperature : ℚ
  system : Option String

def anthropicPayload (model : String) (messages : List LLMMessage)
    (args : ChatArgs) : AnthropicPayload :=
  let split := anthropicSplit messages
  { model := model,
    messages := split.2,
    max_tokens := args.max_tokens,
    temperature := args.temperature,
    system := match split.1 with
      | some s => if s = "" then none else some s
      | none => none }

/-- The `for m in messages` loop of `GoogleProvider.chat`: `system` is
hoisted (last wins), `user` maps to role `user`, `assistant` maps to role
`model`, any other role is dropped. -/
def googleContentsGo : List LLMMessage → Option String → List (String × String) →
    Option String × List (String × String)
  | [], sys, acc => (sys, acc)
  | m :: rest, sys, acc =>
    if m.role = "system" then googleContentsGo rest (some m.content) acc
    else if m.role = "user" then googleContentsGo rest sys (acc ++ [("user", m.content)])
    else if m.role = "assistant" then googleContentsGo rest sys (acc ++ [("model", m.content)])
    else googleContentsGo rest sys acc

def googleContents (messages : List LLMMessage) : Option String × List (String × String) :=
  googleContentsGo messages none []

/-- The JSON body `GoogleProvider.chat` posts. -/
structure GooglePayload where
  contents : List (String × String)
  temperature : ℚ
  maxOutputTokens : Nat
  systemInstruction : Option String
  responseMimeTypeJson : Bool

def googlePayload (messages : List LLMMessage) (args : ChatArgs) : GooglePayload :=
  let split := googleContents messages
  { contents := split.2,
    temperature := args.temperature,
    maxOutputTokens := args.max_tokens,
    systemInstruction := match split.1 with
      | some s => if s = "" then none else some s
      | none => none,
    responseMimeTypeJson := args.json_mode }

/-- The JSON body `OllamaProvider.chat` posts. -/
structure OllamaPayload where
  model : String
  messages : List (String × String)
  stream : Bool
  temperature : ℚ
  num_predict : Nat
  format_json : Bool

def ollamaPayload (default_model : String) (messages : List LLMMessage)
    (args : ChatArgs) : OllamaPayload :=
  { model := pyOrS args.model default_model,
    messages := format_messages messages,
    stream := false,
    temperature := args.temperature,
    num_predict := args.max_tokens,
    format_json := args.json_mode }

/-- `OpenAIProvider.chat`. -/
def openai_chat (httpxInstalled : Bool) (api_key : Option String) (default_model : String)
    (http : OpenAIPayload → Except String VendorReply)
    (messages : List LLMMessage) (args : ChatArgs) : LLMResponse :=
  let model := pyOrS args.model default_model
  if !httpxInstalled then
    { success := false, content := "", model := model, provider := "openai",
      error := some "httpx not installed. Run: pip install httpx" }
  else if pyFalsyS api_key then
    { success := false, content := "", model := model, provider := "openai",
      error := some "OPENAI_API_KEY not set" }
  else
    match http (openaiPayload default_model messages args) with
    | .error e =>
      { success := false, content := "", model := model, provider := "openai",
        error := some e }
    | .ok reply =>
      if reply.status = 200 then
        match reply.contentField with
        | .error e =>
          { success := false, content := "", model := model, provider := "openai",
            error := some e }
        | .ok content =>
          { success := true, content := content, model := model, provider := "openai",
            usage := [("prompt_tokens", usageGet reply.usage "prompt_tokens"),
                      ("completion_tokens", usageGet reply.usage "completion_tokens"),
                      ("total_tokens", usageGet reply.usage "total_tokens")],
            raw_response := some reply.text }
      else
        { success := false, content := "", model := model, provider := "openai",
          error := some ("HTTP " ++ toString reply.status ++ ": " ++ pyTake reply.text 200) }

/-- `AnthropicProvider.chat`: hoists the system message into the payload's
`system` field and normalizes `input_tokens`/`output_tokens` usage. -/
def anthropic_chat (httpxInstalled : Bool) (api_key : Option String) (default_model : String)
    (http : AnthropicPayload → Except String VendorReply)
    (messages : List LLMMessage) (args : ChatArgs) : LLMResponse :=
  let model := pyOrS args.model default_model
  if !httpxInstalled then
    { success := false, content := "", model := model, provider := "anthropic",
      error := some "httpx not installed" }
  else if pyFalsyS api_key then
    { success := false, content := "", model := model, provider := "anthropic",
      error := some "ANTHROPIC_API_KEY not set" }
  else
    match http (anthropicPayload model messages args) with
    | .error e =>
      { success := false, content := "", model := model, provider := "anthropic",
        error := some e }
    | .ok reply =>
      if reply.status = 200 then
        match reply.contentField with
        | .error e =>
          { success := false, content := "", model := model, provider := "anthropic",
            error := some e }
        | .ok content =>
          { success := true, content := content, model := model, provider := "anthropic",
            usage := [("prompt_tokens", usageGet reply.usage "input_tokens"),
                      ("completion_tokens", usageGet reply.usage "output_tokens"),
                      ("total_tokens", usageGet reply.usage "input_tokens" +
                        usageGet reply.usage "output_tokens")],
            raw_response := some reply.text }
      else
        { success := false, content := "", model := model, provider := "anthropic",
          error := some ("HTTP " ++ toString reply.status ++ ": " ++ pyTake reply.text 200) }

/-- `GoogleProvider.chat`: hoists the system message into
`systemInstruction` and normalizes the `usageMetadata` counters. -/
def google_chat (httpxInstalled : Bool) (api_key : Option String) (default_model : String)
    (http : GooglePayload → Except String VendorReply)
    (messages : List LLMMessage) (args : ChatArgs) : LLMResponse :=
  let model := pyOrS args.model default_model
  if !httpxInstalled then
    { success := false, content := "", model := model, provider := "google",
      error := some "httpx not installed" }
  else if pyFalsyS api_key then
    { success := false, content := "", model := model, provider := "google",
      error := some "GOOGLE_API_KEY not set" }
  else
    match http (googlePayload messages args) with
    | .error e =>
      { success := false, content := "", model := model, provider := "google",
        error := some e }
    | .ok reply =>
      if reply.status = 200 then
        match reply.contentField with
        | .error e =>
          { success := false, content := "", model := model, provider := "google",
            error := some e }
        | .ok content =>
          { success := true, content := content, model := model, provider := "google",
            usage := [("prompt_tokens", usageGet reply.usage "promptTokenCount"),
                      ("completion_tokens", usageGet reply.usage "candidatesTokenCount"),
                      ("total_tokens", usageGet reply.usage "totalTokenCount")],
            raw_response := some reply.text }
      else
        { success := false, content := "", model := model, provider := "google",
          error := some ("HTTP " ++ toString reply.status ++ ": " ++ pyTake reply.text 200) }

/-- `GroqProvider.chat`: OpenAI-wire-compatible; differs only in provider
name, credential and error strings. -/
def groq_chat (httpxInstalled : Bool) (api_key : Option String) (default_model : String)
    (http : OpenAIPayload → Except String VendorReply)
    (messages : List LLMMessage) (args : ChatArgs) : LLMResponse :=
  let model := pyOrS args.model default_model
  if !httpxInstalled then
    { success := false, content := "", model := model, provider := "groq",
      error := some "httpx not installed" }
  else if pyFalsyS api_key then
    { success := false, content := "", model := model, provider := "groq",
      error := some "GROQ_API_KEY not set" }
  else
    match http (openaiPayload default_model messages args) with
    | .error e =>
      { success := false, content := "", model := model, provider := "groq",
        error := some e }
    | .ok reply =>
      if reply.status = 200 then
        match reply.contentField with
        | .error e =>
          { success := false, content := "", model := model, provider := "groq",
            error := some e }
        | .ok content =>
          { success := true, content := content, model := model, provider := "groq",
            usage := [("prompt_tokens", usageGet reply.usage "prompt_tokens"),
                      ("completion_tokens", usageGet reply.usage "completion_tokens"),
                      ("total_tokens", usageGet reply.usage "total_tokens")],
            raw_response := some reply.text }
      else
        { success := false, content := "", model := model, provider := "groq",
          error := some ("HTTP " ++ toString reply.status ++ ": " ++ pyTake reply.text 200) }

/-- `OllamaProvider.chat`: local adapter — no credential check, only the
`httpx` import guard; normalizes `prompt_eval_count`/`eval_count`. -/
def ollama_chat (httpxInstalled : Bool) (default_model : String)
    (http : OllamaPayload → Except String VendorReply)
    (messages : List LLMMessage) (args : ChatArgs) : LLMResponse :=
  let model := pyOrS args.model default_model
  if !httpxInstalled then
    { success := false, content := "", model := model, provider := "ollama",
      error := some "httpx not installed" }
  else
    match http (ollamaPayload default_model messages args) with
    | .error e =>
      { success := false, content := "", model := model, provider := "ollama",
        error := some e }
    | .ok reply =>
      if reply.status = 200 then
        match reply.contentField with
        | .error e =>
          { success := false, content := "", model := model, provider := "ollama",
            error := some e }
        | .ok content =>
          { success := true, content := content, model := model, provider := "ollama",
            usage := [("prompt_tokens", usageGet reply.usage "prompt_eval_count"),
                      ("completion_tokens", usageGet reply.usage "eval_count"),
                      ("total_tokens", usageGet reply.usage "prompt_eval_count" +
                        usageGet reply.usage "eval_count")],
            raw_response := some reply.text }
      else
        { success := false, content := "", model := model, provider := "ollama",
          error := some ("HTTP " ++ toString reply.status ++ ": " ++ pyTake reply.text 200) }

/-- The `LLMResponse` invariant of the spec's data model: on failure the
content is empty and an error is present; on success the error is `None`
(the content may still be empty). -/
def responseInvariant (r : LLMResponse) : Prop :=
  (r.success = false → r.content = "" ∧ r.error ≠ none) ∧
  (r.success = true → r.error = none)

def c9Chat : ChatOracle := fun p _ _ =>
  Except.ok { success := false, content := "", model := "m", provider := p,
              error := some "credentials missing" }

/-! ## System-message placement per adapter (claim C5) -/

/-- How `GoogleProvider.chat` renders one non-hoisted message: `user`
stays `user`, `assistant` becomes `model`, anything else is dropped. -/
def googleRender (m : LLMMessage) : List (String × String) :=
  if m.role = "system" then []
  else if m.role = "user" then [("user", m.content)]
  else if m.role = "assistant" then [("model", m.content)]
  else []

/-- `googleRender` over a whole list. -/
def googleRenderList : List LLMMessage → List (String × String)
  | [] => []
  | m :: rest => googleRender m ++ googleRenderList rest

/-! ## Orchestrator (`orchestrator.py`), sequential mode -/

/-- A context value: the task string or an agent's output data map
(the only shapes the sequential pipeline writes). -/
inductive CtxVal where
  | str (s : String) : CtxVal
  | data (d : List (String × String)) : CtxVal
deriving DecidableEq, Repr

/-- Python `dict[k] = v`: replace in place when the key exists, else
append (Python dicts preserve insertion order). -/
def dictInsert {α : Type} (d : List (String × α)) (k : String) (v : α) :
    List (String × α) :=
  if d.any (fun p => p.1 = k) then d.map (fun p => if p.1 = k then (k, v) else p)
  else d ++ [(k, v)]

/-- Python `d.get(k, default)`. -/
def dictGetD {α : Type} (d : List (String × α)) (k : String) (default : α) : α :=
  match d.find? (fun p => p.1 = k) with
  | some p => p.2
  | none => default

/-- The `input_data` map `_run_sequential` builds for one agent. -/
structure SeqInput where
  task : CtxVal
  context : List (String × CtxVal)
  previous_results : List (String × AgentResult)
deriving Repr

/-- The `input_data` built from the current context and accumulated
results: `{"task": context.get("task", ""), "context": context,
"previous_results": results}`. -/
def seqInput (ctx : List (String × CtxVal)) (results : List (String × AgentResult)) :
    SeqInput :=
  { task := dictGetD ctx "task" (.str ""), context := ctx, previous_results := results }

/-- Outcome of running one agent of the sequential loop: the value of
`registry.get(name)` followed by `await agent.safe_execute(input_data)`,
with `Except.error` modelling a raised exception anywhere in the `try`
block. -/
def AgentBehavior : Type := String → SeqInput → Except String AgentResult

/-- The `AgentResult` the sequential loop records for one agent: the
agent's own result on normal return, and the converted failure
(`message = "Agent execution failed"`, `error = str(e)`) when the step
raised. -/
def interpOutcome : Except String AgentResult → AgentResult
  | .ok r => r
  | .error e =>
    { success := false, data := [], message := "Agent execution failed", error := some e }

/-- `Orchestrator._run_sequential` from `orchestrator.py`: run the agents
in list order, threading the shared context; each agent's input carries
the task, the full context and the accumulated results; a successful
result is merged into the context under `"<name>_output"`; a raised
exception is caught, converted, and the loop continues with the remaining
agents (the source's `try`/`except` branches both record
`interpOutcome` — on an exception the context is unchanged, which the
merged form reproduces since the converted result has `success=False`). -/
def run_sequential (behavior : AgentBehavior) :
    List String → List (String × CtxVal) → List (String × AgentResult) →
    List (String × AgentResult) × List (String × CtxVal)
  | [], ctx, results => (results, ctx)
  | name :: rest, ctx, results =>
    let result := interpOutcome (behavior name (seqInput ctx results))
    let results1 := dictInsert results name result
    let ctx1 := if result.success then dictInsert ctx (name ++ "_output") (.data result.data)
      else ctx
    run_sequential behavior rest ctx1 results1

/-- `PipelineResult` from `orchestrator.py`. -/
structure PipelineResult where
  success : Bool
  results : List (String × AgentResult)
  total_duration_ms : ℚ
  errors : List String
deriving Repr

/-- `Orchestrator.run` from `orchestrator.py` in `SEQUENTIAL` mode with an
explicit agent list: seed the context with the initial context plus the
task under `"task"`, run the agents sequentially, then collect one tagged
error per failing result; overall success is `len(errors) == 0`.  `t0` and
`t1` stand for the wall-clock readings. -/
def orchestrator_run_sequential (behavior : AgentBehavior) (task : String)
    (agents : List String) (initial_context : List (String × CtxVal))
    (t0 t1 : ℚ) : PipelineResult :=
  let ctx0 := dictInsert initial_context "task" (.str task)
  let seqOut := run_sequential behavior agents ctx0 []
  let errors := seqOut.1.filterMap (fun p =>
    if p.2.success then none else some (p.1 ++ ": " ++ pyOptStr p.2.error))
  { success := errors.isEmpty, results := seqOut.1,
    total_duration_ms := (t1 - t0) * 1000, errors := errors }

def c6Behavior : AgentBehavior := fun name _ =>
  if name = "architect" then Except.error "unknown tool"
  else Except.ok { success := true, data := [("plan", "ok")], message := "done" }

/-- Helper: a successful provider short-circuits `chatWithFallbackGo`
whatever errors have been accumulated so far. -/
theorem chatWithFallbackGo_first_success (chat : ChatOracle) (messages : List LLMMessage)
    (args : ChatArgs) (post : List String) (p : String) (r : LLMResponse)
    (hp : chat p messages args = .ok r) (hr : r.success = true) :
    ∀ (pre : List String) (errors : List String),
      (∀ q ∈ pre, attemptFailsB chat messages args q = true) →
      chatWithFallbackGo chat messages args (pre ++ p :: post) errors = (r, pre ++ [p]) := by
  intro pre
  induction pre with
  | nil =>
    intro errors _
    simp [chatWithFallbackGo, hp, hr]
  | cons q pre ih =>
    intro errors hfails
    have hq : attemptFailsB chat messages args q = true := hfails q (by simp)
    have hrest : ∀ x ∈ pre, attemptFailsB chat messages args x = true := by
      intro x hx; exact hfails x (by simp [hx])
    unfold attemptFailsB at hq
    cases hcq : chat q messages args with
    | ok rq =>
      rw [hcq] at hq
      simp only [Bool.not_eq_true'] at hq
      simp [chatWithFallbackGo, hcq, hq, ih _ hrest]
    | error e =>
      simp [chatWithFallbackGo, hcq, ih _ hrest]

/-- Helper: if every provider in the list fails, `chatWithFallbackGo`
produces the aggregated failure over the accumulated errors followed by
each provider's recorded failure entry, and invokes every provider. -/
theorem chatWithFallbackGo_all_fail (chat : ChatOracle) (messages : List LLMMessage)
    (args : ChatArgs) :
    ∀ (ps : List String) (errors : List String),
      (∀ q ∈ ps, attemptFailsB chat messages args q = true) →
      chatWithFallbackGo chat messages args ps errors =
        (allFailedResponse (errors ++ ps.map (fallbackErrorEntry chat messages args)), ps) := by
  intro ps
  induction ps with
  | nil => intro errors _; simp [chatWithFallbackGo]
  | cons p rest ih =>
    intro errors hfails
    have hp : attemptFailsB chat messages args p = true := hfails p (by simp)
    have hrest : ∀ x ∈ rest, attemptFailsB chat messages args x = true := by
      intro x hx; exact hfails x (by simp [hx])
    unfold attemptFailsB at hp
    cases hcp : chat p messages args with
    | ok rp =>
      rw [hcp] at hp
      simp only [Bool.not_eq_true'] at hp
      simp [chatWithFallbackGo, hcp, hp, ih _ hrest, fallbackErrorEntry]
    | error e =>
      simp [chatWithFallbackGo, hcp, ih _ hrest, fallbackErrorEntry]

/-- Claim C1: over an ordered provider list in which every provider before
`p` fails (raises or returns `success=False`) and `p`'s `chat` returns a
response with `success=True`, `chat_with_fallback` returns exactly `p`'s
response, and the providers invoked are precisely those up to and
including `p` (no later provider is tried). -/
theorem C1_chat_with_fallback_first_success (chat : ChatOracle) (available : List String)
    (messages : List LLMMessage) (args : ChatArgs)
    (pre post : List String) (p : String) (r : LLMResponse)
    (hpre : ∀ q ∈ pre, attemptFailsB chat messages args q = true)
    (hp : chat p messages args = .ok r) (hr : r.success = true) :
    chat_with_fallback chat available messages (some (pre ++ p :: post)) args =
      (r, pre ++ [p]) := by
  unfold chat_with_fallback
  have hne : (pre ++ p :: post).isEmpty = false := by
    cases pre <;> simp [List.isEmpty]
  simp only [Option.getD_some, hne, Bool.false_eq_true, if_false]
  exact chatWithFallbackGo_first_success chat messages args post p r hp hr pre [] hpre

theorem C1_witness :
    (∀ q ∈ ["openai", "anthropic"], attemptFailsB c1Chat [] {} q = true) ∧
    chat_with_fallback c1Chat [] [] (some (["openai", "anthropic"] ++ "google" :: ["groq"])) {} =
      ({ success := true, content := "hello from gemini", model := "gemini",
         provider := "google" }, ["openai", "anthropic", "google"]) :=
  ⟨by decide, C1_chat_with_fallback_first_success c1Chat [] [] {} ["openai", "anthropic"]
    ["groq"] "google" _ (by decide) rfl rfl⟩

/-- Claim C2: over a non-empty provider list in which every provider
fails, `chat_with_fallback` returns `success=False`, and its error string
contains — after the `"All providers failed: "` prelude — every
provider's name followed by its failure reason, joined in attempt order
as `"<provider>: <error>; <provider>: <error>; ..."`. -/
theorem C2_chat_with_fallback_all_fail (chat : ChatOracle) (available : List String)
    (messages : List LLMMessage) (args : ChatArgs) (ps : List String)
    (hne : ps ≠ [])
    (hfail : ∀ q ∈ ps, attemptFailsB chat messages args q = true) :
    let out := chat_with_fallback chat available messages (some ps) args
    out.1.success = false ∧
    out.1.error = some ("All providers failed: " ++
      String.intercalate "; " (ps.map (fallbackErrorEntry chat messages args))) ∧
    (∃ s, out.1.error = some (s ++
      String.intercalate "; " (ps.map (fallbackErrorEntry chat messages args)))) := by
  intro out
  have hemp : ps.isEmpty = false := by
    cases ps with
    | nil => exact absurd rfl hne
    | cons a l => rfl
  have : out = (allFailedResponse (ps.map (fallbackErrorEntry chat messages args)), ps) := by
    show chat_with_fallback chat available messages (some ps) args = _
    unfold chat_with_fallback
    simp only [Option.getD_some, hemp, Bool.false_eq_true, if_false]
    have := chatWithFallbackGo_all_fail chat messages args ps [] hfail
    simpa using this
  rw [this]
  refine ⟨rfl, rfl, "All providers failed: ", rfl⟩

theorem C2_witness :
    (["openai", "groq"] ≠ ([] : List String)) ∧
    (∀ q ∈ ["openai", "groq"], attemptFailsB c2Chat [] {} q = true) ∧
    ((chat_with_fallback c2Chat [] [] (some ["openai", "groq"]) {}).1.success = false ∧
     (chat_with_fallback c2Chat [] [] (some ["openai", "groq"]) {}).1.error =
       some ("All providers failed: " ++ String.intercalate "; "
         (["openai", "groq"].map (fallbackErrorEntry c2Chat [] {}))) ∧
     (∃ s, (chat_with_fallback c2Chat [] [] (some ["openai", "groq"]) {}).1.error =
       some (s ++ String.intercalate "; "
         (["openai", "groq"].map (fallbackErrorEntry c2Chat [] {}))))) :=
  ⟨by decide, by decide, C2_chat_with_fallback_all_fail c2Chat [] [] {} ["openai", "groq"]
    (by decide) (by decide)⟩

/-- Claim C8: `parse_json_response` (the parse step of `think_json`) is
total in the embedding (never raises): a ```` ```json ```` fence or bare
```` ``` ```` fence around an object parses to that object, unfenced valid
JSON parses directly, trailing garbage after a balanced object is
recovered by the brace scan, and non-JSON prose degrades to a fallback
dictionary carrying the original text and a parse-error field. -/
theorem C8_parse_json_response_spec :
    (∀ s : String, ∃ v : JsonVal, parse_json_response s = v) ∧
    parse_json_response "```json\n\x7b\"a\": 1\x7d\n```" = .obj [("a", .num 1)] ∧
    parse_json_response "```\n\x7b\"a\": 1\x7d\n```" = .obj [("a", .num 1)] ∧
    parse_json_response "\x7b\"a\": 1\x7d" = .obj [("a", .num 1)] ∧
    parse_json_response "\x7b\"a\": 1\x7d trailing garbage" = .obj [("a", .num 1)] ∧
    objGet (parse_json_response "hello world, not json.") "raw_content" =
      some (.str "hello world, not json.") ∧
    (objGet (parse_json_response "hello world, not json.") "parse_error").isSome = true :=
  ⟨fun s => ⟨parse_json_response s, rfl⟩, rfl, rfl, rfl, rfl, rfl, rfl⟩

/-- Helper: the trim loop always leaves at most `maxE` entries. -/
theorem trimEntries_length_le (maxE : Nat) :
    ∀ (l : List MemoryEntry) (est : Int), (trimEntries maxE l est).1.length ≤ maxE := by
  intro l
  induction l with
  | nil => intro est; simp [trimEntries]
  | cons e rest ih =>
    intro est
    by_cases h : maxE < (e :: rest).length
    · simp only [trimEntries, if_pos h]; exact ih _
    · simp only [trimEntries, if_neg h]; omega

/-- Helper: the trim loop keeps the token estimate equal to the sum of the
surviving entries' estimates. -/
theorem trimEntries_est (maxE : Nat) :
    ∀ (l : List MemoryEntry) (est : Int), est = memSum l →
      (trimEntries maxE l est).2 = memSum (trimEntries maxE l est).1 := by
  intro l
  induction l with
  | nil => intro est h; simpa [trimEntries, memSum] using h
  | cons e rest ih =>
    intro est h
    by_cases hlen : maxE < (e :: rest).length
    · simp only [trimEntries, if_pos hlen]
      exact ih _ (by rw [h]; simp [memSum])
    · simp only [trimEntries, if_neg hlen]; exact h

/-- Helper: the trim loop evicts only from the front (the result is a tail
of the input). -/
theorem trimEntries_drop (maxE : Nat) :
    ∀ (l : List MemoryEntry) (est : Int), ∃ k, (trimEntries maxE l est).1 = l.drop k := by
  intro l
  induction l with
  | nil => intro est; exact ⟨0, rfl⟩
  | cons e rest ih =>
    intro est
    by_cases hlen : maxE < (e :: rest).length
    · simp only [trimEntries, if_pos hlen]
      obtain ⟨k, hk⟩ := ih (est - tokenEst e.content)
      exact ⟨k + 1, by simpa using hk⟩
    · simp only [trimEntries, if_neg hlen]; exact ⟨0, rfl⟩

/-- Counterexample to claim C4: with `max_entries = 5` and
`max_tokens = 2`, inserting a single 12-character entry leaves a token
estimate of 3, exceeding the token cap — `AgentMemory.add` never evicts on
the token budget, only on the entry count. -/
theorem C4_counterexample :
    let m := AgentMemory.add
      { entries := [], max_entries := 5, max_tokens := 2, token_estimate := 0 }
      "user" "aaaaaaaaaaaa" 0 []
    m.entries.length ≤ m.max_entries ∧ ¬ ((m.token_estimate : Int) ≤ (m.max_tokens : Int)) := by
  decide

/-- Claim C4 as amended: the memory is a FIFO log capped at the entry
count only; each insertion evicts from the oldest end whenever the entry
cap is exceeded and each eviction updates the running token estimate (the
estimate stays equal to the sum of the surviving entries' per-entry
estimates), but the token cap `max_tokens` is tracked without being
enforced. -/
theorem C4_memory_fifo_entry_cap (m : AgentMemory) (role content : String) (ts : ℚ)
    (metadata : List (String × String))
    (hinv : m.token_estimate = memSum m.entries) :
    let m1 := m.add role content ts metadata
    m1.entries.length ≤ m1.max_entries ∧
    m1.token_estimate = memSum m1.entries ∧
    ∃ k, m1.entries =
      (m.entries ++ [({ role := role, content := content, timestamp := ts,
                        metadata := metadata } : MemoryEntry)]).drop k := by
  intro m1
  refine ⟨trimEntries_length_le _ _ _, ?_, ?_⟩
  · exact trimEntries_est m.max_entries _ _ (by
      rw [hinv]
      induction m.entries with
      | nil => simp [memSum]
      | cons e rest ih => simp [memSum] at ih ⊢; omega)
  · exact trimEntries_drop _ _ _

theorem C4_amended_witness :
    (c4Mem.token_estimate = memSum c4Mem.entries) ∧
    (let m1 := c4Mem.add "user" "abcdefgh" 0 []
     m1.entries.length ≤ m1.max_entries ∧
     m1.token_estimate = memSum m1.entries ∧
     ∃ k, m1.entries = (c4Mem.entries ++
       [({ role := "user", content := "abcdefgh", timestamp := 0, metadata := [] }
         : MemoryEntry)]).drop k) :=
  ⟨rfl, C4_memory_fifo_entry_cap c4Mem "user" "abcdefgh" 0 [] rfl⟩

/-- Helper: the retry loop issues at most `remaining` further attempts. -/
theorem callWithRetryGo_tried_length (primary : Nat → Except String LLMResponse) (mr : Nat) :
    ∀ (remaining attempt retries : Nat) (waits : List ℚ) (tried : List Nat),
      (callWithRetryGo primary mr remaining attempt retries waits tried).tried.length ≤
        tried.length + remaining := by
  intro remaining
  induction remaining with
  | zero => intro attempt retries waits tried; simp [callWithRetryGo]
  | succ n ih =>
    intro attempt retries waits tried
    cases h : primary attempt with
    | ok r =>
      cases hs : r.success with
      | true => simp [callWithRetryGo, h, hs]
      | false =>
        have hrec := ih (attempt + 1) (retries + 1)
          (if attempt < mr - 1 then waits ++ [retryWait attempt] else waits)
          (tried ++ [attempt])
        simp only [callWithRetryGo, h, hs, Bool.false_eq_true, if_false]
        simp only [List.length_append, List.length_singleton] at hrec
        omega
    | error e =>
      have hrec := ih (attempt + 1) (retries + 1)
        (if attempt < mr - 1 then waits ++ [retryWait attempt] else waits)
        (tried ++ [attempt])
      simp only [callWithRetryGo, h]
      simp only [List.length_append, List.length_singleton] at hrec
      omega

/-- Helper: when every attempt in the window fails, the retry loop runs to
exhaustion: no response, one retry increment per attempt, the expected
backoff sleeps, and one primary invocation per attempt index. -/
theorem callWithRetryGo_all_fail (primary : Nat → Except String LLMResponse) (mr : Nat) :
    ∀ (remaining attempt retries : Nat) (waits : List ℚ) (tried : List Nat),
      (∀ i, attempt ≤ i → i < attempt + remaining → rawAttemptFailsB primary i = true) →
      callWithRetryGo primary mr remaining attempt retries waits tried =
        { response := none, retries := retries + remaining,
          waits := waits ++ expectedWaits mr attempt remaining,
          tried := tried ++ List.range' attempt remaining } := by
  intro remaining
  induction remaining with
  | zero => intro attempt retries waits tried _; simp [callWithRetryGo, expectedWaits, List.range']
  | succ n ih =>
    intro attempt retries waits tried hfails
    have hatt : rawAttemptFailsB primary attempt = true := hfails attempt le_rfl (by omega)
    have hrest : ∀ i, attempt + 1 ≤ i → i < attempt + 1 + n → rawAttemptFailsB primary i = true := by
      intro i h1 h2; exact hfails i (by omega) (by omega)
    unfold rawAttemptFailsB at hatt
    have hw : ∀ ws : List ℚ,
        (if attempt < mr - 1 then ws ++ [retryWait attempt] else ws) ++
          expectedWaits mr (attempt + 1) n = ws ++ expectedWaits mr attempt (n + 1) := by
      intro ws
      by_cases hcond : attempt < mr - 1 <;> simp [expectedWaits, hcond, List.append_assoc]
    have ht : (tried ++ [attempt]) ++ List.range' (attempt + 1) n =
        tried ++ List.range' attempt (n + 1) := by
      simp [List.range', List.append_assoc]
    cases hc : primary attempt with
    | ok r =>
      rw [hc] at hatt
      simp only [Bool.not_eq_true'] at hatt
      simp only [callWithRetryGo, hc, hatt, Bool.false_eq_true, if_false]
      rw [ih (attempt + 1) (retries + 1) _ _ hrest, hw, ht]
      congr 1
      omega
    | error e =>
      simp only [callWithRetryGo, hc]
      rw [ih (attempt + 1) (retries + 1) _ _ hrest, hw, ht]
      congr 1
      omega

/-- Helper: over the full window `[a, a + n)` with `a + n = max_retries`,
the backoff sleeps are exactly one per attempt except the last. -/
theorem expectedWaits_eq (mr : Nat) :
    ∀ (n a : Nat), a + n = mr →
      expectedWaits mr a n = (List.range' a (n - 1)).map retryWait := by
  intro n
  induction n with
  | zero => intro a _; simp [expectedWaits]
  | succ n ih =>
    intro a h
    cases n with
    | zero =>
      have hcond : ¬ a < mr - 1 := by omega
      simp [expectedWaits, hcond]
    | succ m =>
      have hcond : a < mr - 1 := by omega
      have hrec := ih (a + 1) (by omega)
      simp only [expectedWaits, hcond, if_true, Nat.add_sub_cancel] at hrec ⊢
      rw [hrec]
      simp [List.range']

/-- Claim C3: `_call_with_retry` makes at most `max_retries` attempts
against the primary provider; and when every one of them fails (a raised
exception and a `success=False` response counting identically), it makes
exactly `max_retries` attempts (indices `0..max_retries-1`), increments
the retry counter once per failed attempt, sleeps
`2^attempt + 0.1*attempt` after each failed attempt except the last, and
then invokes the fallback dispatcher over the available providers,
returning its result. -/
theorem C3_call_with_retry_policy (cfg : AgentConfig) (primary : PrimaryOracle)
    (fallbackChat : ChatOracle) (available : List String) (messages : List LLMMessage)
    (temperature : ℚ) (max_tokens : Nat) (json_mode : Bool) (metrics : ExecutionMetrics) :
    let out := call_with_retry cfg primary fallbackChat available messages temperature
      max_tokens json_mode metrics
    out.2.2.tried.length ≤ cfg.max_retries ∧
    ((∀ i, i < cfg.max_retries →
        primaryAttemptFailsB primary messages
          (primaryArgs cfg temperature max_tokens json_mode) i = true) →
      out.2.2.tried = List.range cfg.max_retries ∧
      out.2.1.retries = metrics.retries + cfg.max_retries ∧
      out.2.2.waits = (List.range (cfg.max_retries - 1)).map retryWait ∧
      out.2.2.used_fallback = true ∧
      out.1 = (chat_with_fallback fallbackChat available messages none
        (fallbackArgs temperature max_tokens json_mode)).1) := by
  intro out
  constructor
  · have hb := callWithRetryGo_tried_length
      (fun i => primary i messages (primaryArgs cfg temperature max_tokens json_mode))
      cfg.max_retries cfg.max_retries 0 0 [] []
    have htr : out.2.2.tried = (callWithRetryGo
        (fun i => primary i messages (primaryArgs cfg temperature max_tokens json_mode))
        cfg.max_retries cfg.max_retries 0 0 [] []).tried := by
      show (call_with_retry cfg primary fallbackChat available messages temperature
        max_tokens json_mode metrics).2.2.tried = _
      simp only [call_with_retry]
      cases hresp : (callWithRetryGo
          (fun i => primary i messages (primaryArgs cfg temperature max_tokens json_mode))
          cfg.max_retries cfg.max_retries 0 0 [] []).response <;> rfl
    rw [htr]
    simpa using hb
  · intro hfails
    have hall := callWithRetryGo_all_fail
      (fun i => primary i messages (primaryArgs cfg temperature max_tokens json_mode))
      cfg.max_retries cfg.max_retries 0 0 [] []
      (by intro i h1 h2; exact hfails i (by omega))
    have hout : out = ((chat_with_fallback fallbackChat available messages none
        (fallbackArgs temperature max_tokens json_mode)).1,
        { metrics with retries := metrics.retries + cfg.max_retries },
        { response := none, retries := cfg.max_retries,
          waits := expectedWaits cfg.max_retries 0 cfg.max_retries,
          tried := List.range' 0 cfg.max_retries, used_fallback := true }) := by
      show call_with_retry cfg primary fallbackChat available messages temperature
        max_tokens json_mode metrics = _
      simp only [call_with_retry, hall, Nat.zero_add, List.nil_append]
    rw [hout]
    refine ⟨by rw [List.range_eq_range'], rfl,
      by rw [expectedWaits_eq cfg.max_retries cfg.max_retries 0 (by omega),
             List.range_eq_range'], rfl, rfl⟩

theorem C3_witness :
    (∀ i, i < c3Cfg.max_retries →
      primaryAttemptFailsB c3Primary [] (primaryArgs c3Cfg (3 / 10) 4000 false) i = true) ∧
    ((call_with_retry c3Cfg c3Primary c3Fallback ["ollama"] [] (3 / 10) 4000 false
        {}).2.2.tried = List.range c3Cfg.max_retries ∧
     (call_with_retry c3Cfg c3Primary c3Fallback ["ollama"] [] (3 / 10) 4000 false
        {}).2.1.retries = ExecutionMetrics.retries {} + c3Cfg.max_retries ∧
     (call_with_retry c3Cfg c3Primary c3Fallback ["ollama"] [] (3 / 10) 4000 false
        {}).2.2.waits = (List.range (c3Cfg.max_retries - 1)).map retryWait ∧
     (call_with_retry c3Cfg c3Primary c3Fallback ["ollama"] [] (3 / 10) 4000 false
        {}).2.2.used_fallback = true ∧
     (call_with_retry c3Cfg c3Primary c3Fallback ["ollama"] [] (3 / 10) 4000 false
        {}).1 = (chat_with_fallback c3Fallback ["ollama"] [] none
        (fallbackArgs (3 / 10) 4000 false)).1) :=
  ⟨by decide, (C3_call_with_retry_policy c3Cfg c3Primary c3Fallback ["ollama"] []
    (3 / 10) 4000 false {}).2 (by decide)⟩

/-- Claim C7: `safe_execute` resets metrics to a fresh record stamped with
the start time, delegates to `execute`, and on both the normal and the
raising path finalizes metrics (end timestamp and duration) and returns an
`AgentResult`; a raised exception is converted into a failed result whose
`error` is the exception's message — no exception escapes (the embedding
is total). -/
theorem C7_safe_execute_spec (name : String)
    (execute : AgentState → Except String AgentResult × AgentState)
    (t0 t1 : ℚ) (st : AgentState) :
    (start_metrics t0 = { start_time := t0 } ∧ (start_metrics t0).start_time = t0) ∧
    (∀ r st1, execute { st with metrics := start_metrics t0 } = (.ok r, st1) →
      safe_execute name execute t0 t1 st =
        (r, { st1 with metrics := end_metrics st1.metrics t1 })) ∧
    (∀ e st1, execute { st with metrics := start_metrics t0 } = (.error e, st1) →
      safe_execute name execute t0 t1 st =
        ({ success := false, data := [], message := name ++ " execution failed",
           error := some e, metrics := some (end_metrics st1.metrics t1) },
         { st1 with metrics := end_metrics st1.metrics t1 })) ∧
    (∀ m : ExecutionMetrics,
      (end_metrics m t1).end_time = t1 ∧
      (end_metrics m t1).duration_ms = (t1 - m.start_time) * 1000 ∧
      (end_metrics m t1).start_time = m.start_time) := by
  refine ⟨⟨rfl, rfl⟩, ?_, ?_, fun m => ⟨rfl, rfl, rfl⟩⟩
  · intro r st1 h
    simp [safe_execute, h]
  · intro e st1 h
    simp [safe_execute, h, create_error_result]

theorem C7_witness :
    (c7Exec { ({} : AgentState) with metrics := start_metrics 5 } =
      (Except.error "division by zero",
       { ({} : AgentState) with metrics := start_metrics 5 })) ∧
    safe_execute "Demo" c7Exec 5 7 {} =
      ({ success := false, data := [], message := "Demo execution failed",
         error := some "division by zero",
         metrics := some (end_metrics (start_metrics 5) 7) },
       { ({ } : AgentState) with metrics := end_metrics (start_metrics 5) 7 }) :=
  ⟨rfl, (C7_safe_execute_spec "Demo" c7Exec 5 7 {}).2.2.1 "division by zero"
    { ({} : AgentState) with metrics := start_metrics 5 } rfl⟩

/-- Claim C10: characterization of `think` around its LLM call `cr`.  When
the call (after retries and fallback) fails, the memory is left unchanged,
the error is appended to `metrics.errors`, and `think` raises; when it
succeeds, the user prompt and the assistant reply are appended to memory
in that order, the token counters accumulate the response usage, and the
reply text is returned. -/
theorem C10_think_frame (cfg : AgentConfig) (primary : PrimaryOracle)
    (fallbackChat : ChatOracle) (available : List String) (prompt : String)
    (system_prompt : Option String) (temperature : Option ℚ) (max_tokens : Option Nat)
    (json_mode : Bool) (use_memory : Bool) (tsUser tsAssistant : ℚ) (st : AgentState)
    (cr : LLMResponse × ExecutionMetrics × RetryLoopOut)
    (hcr : cr = call_with_retry cfg primary fallbackChat available
      (thinkMessages cfg system_prompt use_memory st.memory prompt)
      (pyOrQ temperature cfg.temperature) (pyOrN max_tokens cfg.max_tokens)
      json_mode st.metrics) :
    (cr.1.success = false →
      think cfg primary fallbackChat available prompt system_prompt temperature max_tokens
        json_mode use_memory tsUser tsAssistant st =
      (Except.error ("LLM call failed: " ++ pyOptStr cr.1.error),
       { memory := st.memory,
         metrics := { cr.2.1 with
           errors := cr.2.1.errors ++ [pyOrS cr.1.error "Unknown error"] } })) ∧
    (cr.1.success = true →
      think cfg primary fallbackChat available prompt system_prompt temperature max_tokens
        json_mode use_memory tsUser tsAssistant st =
      (Except.ok cr.1.content,
       { memory := (st.memory.add "user" prompt tsUser []).add "assistant" cr.1.content
           tsAssistant [],
         metrics := { cr.2.1 with
           tokens_input := cr.2.1.tokens_input + usageGet cr.1.usage "prompt_tokens",
           tokens_output := cr.2.1.tokens_output + usageGet cr.1.usage "completion_tokens",
           tokens_total := cr.2.1.tokens_total + usageGet cr.1.usage "total_tokens",
           model_used := cr.1.model,
           provider_used := cr.1.provider } })) := by
  subst hcr
  constructor
  · intro h
    simp only [think, h, Bool.false_eq_true, if_false]
  · intro h
    simp only [think, h, if_true]

theorem C10_witness :
    (c10Cr.1.success = false) ∧
    think c10Cfg c10Primary c10Fallback ["ollama"] "new question" none none none false true
      1 2 c10St =
      (Except.error ("LLM call failed: " ++ pyOptStr c10Cr.1.error),
       { memory := c10St.memory,
         metrics := { c10Cr.2.1 with
           errors := c10Cr.2.1.errors ++ [pyOrS c10Cr.1.error "Unknown error"] } }) :=
  ⟨by decide, (C10_think_frame c10Cfg c10Primary c10Fallback ["ollama"] "new question"
    none none none false true 1 2 c10St c10Cr rfl).1 (by decide)⟩

/-- Helper: any failure-shaped response satisfies the invariant. -/
theorem responseInvariant_of_fail (c m p : String) (u : List (String × Nat)) (e : String)
    (raw : Option String) (hc : c = "") :
    responseInvariant { success := false, content := c, model := m, provider := p,
                        usage := u, error := some e, raw_response := raw } :=
  ⟨fun _ => ⟨hc, by simp⟩, fun h => nomatch h⟩

/-- Helper: any success-shaped response with no error satisfies the
invariant. -/
theorem responseInvariant_of_ok (c m p : String) (u : List (String × Nat))
    (raw : Option String) :
    responseInvariant { success := true, content := c, model := m, provider := p,
                        usage := u, error := none, raw_response := raw } :=
  ⟨fun h => (nomatch h), fun _ => rfl⟩

/-- Helper: the fallback loop preserves the response invariant provided
every response the per-provider oracle can return satisfies it. -/
theorem chatWithFallbackGo_invariant (chat : ChatOracle) (ms : List LLMMessage)
    (args : ChatArgs) (hyp : ∀ p r, chat p ms args = .ok r → responseInvariant r) :
    ∀ (ps errors : List String), responseInvariant (chatWithFallbackGo chat ms args ps errors).1 := by
  intro ps
  induction ps with
  | nil =>
    intro errors
    refine ⟨fun _ => ⟨rfl, ?_⟩, fun h => by simp [chatWithFallbackGo, allFailedResponse] at h⟩
    simp [chatWithFallbackGo, allFailedResponse]
  | cons p rest ih =>
    intro errors
    cases hc : chat p ms args with
    | ok r =>
      by_cases hs : r.success
      · have := hyp p r hc
        simp only [chatWithFallbackGo, hc, hs, if_true]
        exact this
      · simp only [chatWithFallbackGo, hc, hs, Bool.false_eq_true, if_false]
        exact ih _
    | error e =>
      simp only [chatWithFallbackGo, hc]
      exact ih _

/-- Claim C9: every `LLMResponse` produced by any adapter's `chat`
satisfies the invariant — `success=False` implies empty content and a
present error, `success=True` implies a `None` error — and
`chat_with_fallback` preserves the invariant whenever the per-provider
responses satisfy it (as the adapters do). -/
theorem C9_llmresponse_invariant :
    (∀ (hx : Bool) (key : Option String) (dm : String)
        (http : OpenAIPayload → Except String VendorReply)
        (ms : List LLMMessage) (args : ChatArgs),
      responseInvariant (openai_chat hx key dm http ms args)) ∧
    (∀ (hx : Bool) (key : Option String) (dm : String)
        (http : AnthropicPayload → Except String VendorReply)
        (ms : List LLMMessage) (args : ChatArgs),
      responseInvariant (anthropic_chat hx key dm http ms args)) ∧
    (∀ (hx : Bool) (key : Option String) (dm : String)
        (http : GooglePayload → Except String VendorReply)
        (ms : List LLMMessage) (args : ChatArgs),
      responseInvariant (google_chat hx key dm http ms args)) ∧
    (∀ (hx : Bool) (key : Option String) (dm : String)
        (http : OpenAIPayload → Except String VendorReply)
        (ms : List LLMMessage) (args : ChatArgs),
      responseInvariant (groq_chat hx key dm http ms args)) ∧
    (∀ (hx : Bool) (dm : String) (http : OllamaPayload → Except String VendorReply)
        (ms : List LLMMessage) (args : ChatArgs),
      responseInvariant (ollama_chat hx dm http ms args)) ∧
    (∀ (chat : ChatOracle) (available : List String) (ms : List LLMMessage)
        (providers : Option (List String)) (args : ChatArgs),
      (∀ p r, chat p ms args = .ok r → responseInvariant r) →
      responseInvariant (chat_with_fallback chat available ms providers args).1) := by
  refine ⟨?_, ?_, ?_, ?_, ?_, ?_⟩
  · intro hx key dm http ms args
    simp only [openai_chat]
    repeat' split
    all_goals first
      | exact responseInvariant_of_fail _ _ _ _ _ _ rfl
      | exact responseInvariant_of_ok _ _ _ _ _
  · intro hx key dm http ms args
    simp only [anthropic_chat]
    repeat' split
    all_goals first
      | exact responseInvariant_of_fail _ _ _ _ _ _ rfl
      | exact responseInvariant_of_ok _ _ _ _ _
  · intro hx key dm http ms args
    simp only [google_chat]
    repeat' split
    all_goals first
      | exact responseInvariant_of_fail _ _ _ _ _ _ rfl
      | exact responseInvariant_of_ok _ _ _ _ _
  · intro hx key dm http ms args
    simp only [groq_chat]
    repeat' split
    all_goals first
      | exact responseInvariant_of_fail _ _ _ _ _ _ rfl
      | exact responseInvariant_of_ok _ _ _ _ _
  · intro hx dm http ms args
    simp only [ollama_chat]
    repeat' split
    all_goals first
      | exact responseInvariant_of_fail _ _ _ _ _ _ rfl
      | exact responseInvariant_of_ok _ _ _ _ _
  · intro chat available ms providers args hyp
    simp only [chat_with_fallback]
    by_cases hemp : (providers.getD available).isEmpty
    · simp only [hemp, if_true]
      exact ⟨fun _ => ⟨rfl, by simp⟩, fun h => nomatch h⟩
    · simp only [hemp, Bool.false_eq_true, if_false]
      exact chatWithFallbackGo_invariant chat ms args hyp _ _

theorem C9_witness :
    (∀ p r, c9Chat p [] {} = .ok r → responseInvariant r) ∧
    responseInvariant (chat_with_fallback c9Chat [] [] (some ["openai", "ollama"]) {}).1 := by
  have hyp : ∀ p r, c9Chat p [] {} = .ok r → responseInvariant r := by
    intro p r h
    simp only [c9Chat] at h
    injection h with h2
    subst h2
    exact ⟨fun _ => ⟨rfl, by simp⟩, fun ht => nomatch ht⟩
  exact ⟨hyp, C9_llmresponse_invariant.2.2.2.2.2 c9Chat [] []
    (some ["openai", "ollama"]) {} hyp⟩

theorem googleRenderList_append (l1 l2 : List LLMMessage) :
    googleRenderList (l1 ++ l2) = googleRenderList l1 ++ googleRenderList l2 := by
  induction l1 with
  | nil => simp [googleRenderList]
  | cons m rest ih => simp [googleRenderList, ih]

/-- Helper: over a system-free list the Anthropic split only appends
turn pairs. -/
theorem anthropicSplitGo_no_system :
    ∀ (l : List LLMMessage) (sys : Option String) (acc : List (String × String)),
      (∀ m ∈ l, m.role ≠ "system") →
      anthropicSplitGo l sys acc = (sys, acc ++ l.map (fun m => (m.role, m.content))) := by
  intro l
  induction l with
  | nil => intro sys acc _; simp [anthropicSplitGo]
  | cons m rest ih =>
    intro sys acc h
    have hm : ¬ m.role = "system" := h m (by simp)
    simp [anthropicSplitGo, hm, ih _ _ (fun x hx => h x (by simp [hx]))]

/-- Helper: the Anthropic split hoists the unique system message wherever
it sits and keeps the other messages in order. -/
theorem anthropicSplitGo_hoists (sysm : LLMMessage) (hs : sysm.role = "system")
    (post : List LLMMessage) (hpost : ∀ m ∈ post, m.role ≠ "system") :
    ∀ (pre : List LLMMessage) (sys : Option String) (acc : List (String × String)),
      (∀ m ∈ pre, m.role ≠ "system") →
      anthropicSplitGo (pre ++ sysm :: post) sys acc =
        (some sysm.content, acc ++ (pre ++ post).map (fun m => (m.role, m.content))) := by
  intro pre
  induction pre with
  | nil =>
    intro sys acc _
    simp [anthropicSplitGo, hs, anthropicSplitGo_no_system post _ _ hpost]
  | cons m rest ih =>
    intro sys acc h
    have hm : ¬ m.role = "system" := h m (by simp)
    simp [anthropicSplitGo, hm, ih _ _ (fun x hx => h x (by simp [hx]))]

/-- Helper: over a system-free list the Google conversion only appends
rendered pairs. -/
theorem googleContentsGo_no_system :
    ∀ (l : List LLMMessage) (sys : Option String) (acc : List (String × String)),
      (∀ m ∈ l, m.role ≠ "system") →
      googleContentsGo l sys acc = (sys, acc ++ googleRenderList l) := by
  intro l
  induction l with
  | nil => intro sys acc _; simp [googleContentsGo, googleRenderList]
  | cons m rest ih =>
    intro sys acc h
    have hm : ¬ m.role = "system" := h m (by simp)
    have hnext : ∀ x ∈ rest, x.role ≠ "system" := fun x hx => h x (by simp [hx])
    have hrec := fun (s : Option String) (a : List (String × String)) => ih s a hnext
    by_cases hu : m.role = "user"
    · simp [googleContentsGo, hm, hu, googleRenderList, googleRender, hrec]
    · by_cases ha : m.role = "assistant"
      · simp [googleContentsGo, hm, hu, ha, googleRenderList, googleRender, hrec]
      · simp [googleContentsGo, hm, hu, ha, googleRenderList, googleRender, hrec]

/-- Helper: the Google conversion hoists the unique system message and
renders the rest in order. -/
theorem googleContentsGo_hoists (sysm : LLMMessage) (hs : sysm.role = "system")
    (post : List LLMMessage) (hpost : ∀ m ∈ post, m.role ≠ "system") :
    ∀ (pre : List LLMMessage) (sys : Option String) (acc : List (String × String)),
      (∀ m ∈ pre, m.role ≠ "system") →
      googleContentsGo (pre ++ sysm :: post) sys acc =
        (some sysm.content, acc ++ googleRenderList (pre ++ post)) := by
  intro pre
  induction pre with
  | nil =>
    intro sys acc _
    simp [googleContentsGo, hs, googleContentsGo_no_system post _ _ hpost,
      googleRenderList_append]
  | cons m rest ih =>
    intro sys acc h
    have hm : ¬ m.role = "system" := h m (by simp)
    have hnext : ∀ x ∈ rest, x.role ≠ "system" := fun x hx => h x (by simp [hx])
    have hrec := fun (s : Option String) (a : List (String × String)) => ih s a hnext
    by_cases hu : m.role = "user"
    · simp [googleContentsGo, hm, hu, hrec, googleRenderList_append, googleRenderList,
        googleRender]
    · by_cases ha : m.role = "assistant"
      · simp [googleContentsGo, hm, hu, ha, hrec, googleRenderList_append, googleRenderList,
          googleRender]
      · simp [googleContentsGo, hm, hu, ha, hrec, googleRenderList_append, googleRenderList,
          googleRender]

/-- Counterexample to claim C5 as stated: with the single system message
in second position, the OpenAI-style payload leaves it in second position
— inline adapters preserve input order and do not move the system message
to position 0. -/
theorem C5_counterexample :
    (openaiPayload "gpt-4o-mini"
      [{ role := "user", content := "hi" }, { role := "system", content := "be brief" }]
      {}).messages = [("user", "hi"), ("system", "be brief")] ∧
    ¬ ((openaiPayload "gpt-4o-mini"
      [{ role := "user", content := "hi" }, { role := "system", content := "be brief" }]
      {}).messages.head? = some ("system", "be brief")) := by
  constructor
  · rfl
  · intro h
    simp [openaiPayload, format_messages] at h

/-- Claim C5 as amended: for a message list with exactly one system
message (of non-empty content), the Anthropic and Gemini adapters hoist it
out of the turn list into their dedicated system field wherever it sits,
preserving the order of the remaining messages; the OpenAI-style, Groq and
Ollama adapters place the messages in the payload exactly in input order,
so their payload has the system message at position 0 only when the input
does. -/
theorem C5_system_message_placement (pre post : List LLMMessage) (sysm : LLMMessage)
    (hs : sysm.role = "system") (hne : sysm.content ≠ "")
    (hpre : ∀ m ∈ pre, m.role ≠ "system") (hpost : ∀ m ∈ post, m.role ≠ "system")
    (default_model : String) (args : ChatArgs) :
    (anthropicPayload (pyOrS args.model default_model) (pre ++ sysm :: post) args).system =
      some sysm.content ∧
    (anthropicPayload (pyOrS args.model default_model) (pre ++ sysm :: post) args).messages =
      (pre ++ post).map (fun m => (m.role, m.content)) ∧
    (googlePayload (pre ++ sysm :: post) args).systemInstruction = some sysm.content ∧
    (googlePayload (pre ++ sysm :: post) args).contents = googleRenderList (pre ++ post) ∧
    (openaiPayload default_model (pre ++ sysm :: post) args).messages =
      (pre ++ sysm :: post).map (fun m => (m.role, m.content)) ∧
    (ollamaPayload default_model (pre ++ sysm :: post) args).messages =
      (pre ++ sysm :: post).map (fun m => (m.role, m.content)) := by
  have hanth := anthropicSplitGo_hoists sysm hs post hpost pre none [] hpre
  have hgoog := googleContentsGo_hoists sysm hs post hpost pre none [] hpre
  refine ⟨?_, ?_, ?_, ?_, rfl, rfl⟩
  · simp [anthropicPayload, anthropicSplit, hanth, hne]
  · simp [anthropicPayload, anthropicSplit, hanth]
  · simp [googlePayload, googleContents, hgoog, hne]
  · simp [googlePayload, googleContents, hgoog]

theorem C5_amended_witness :
    (({ role := "system", content := "be brief" } : LLMMessage).role = "system") ∧
    (({ role := "system", content := "be brief" } : LLMMessage).content ≠ "") ∧
    (∀ m ∈ [({ role := "user", content := "hi" } : LLMMessage)], m.role ≠ "system") ∧
    ((anthropicPayload (pyOrS none "gpt-4o-mini")
        [{ role := "user", content := "hi" }, { role := "system", content := "be brief" }]
        {}).system = some "be brief" ∧
     (anthropicPayload (pyOrS none "gpt-4o-mini")
        [{ role := "user", content := "hi" }, { role := "system", content := "be brief" }]
        {}).messages = [({ role := "user", content := "hi" } : LLMMessage)].map
          (fun m => (m.role, m.content)) ∧
     (googlePayload [{ role := "user", content := "hi" },
        { role := "system", content := "be brief" }] {}).systemInstruction =
          some "be brief" ∧
     (googlePayload [{ role := "user", content := "hi" },
        { role := "system", content := "be brief" }] {}).contents =
          googleRenderList [({ role := "user", content := "hi" } : LLMMessage)] ∧
     (openaiPayload "gpt-4o-mini" [{ role := "user", content := "hi" },
        { role := "system", content := "be brief" }] {}).messages =
          [({ role := "user", content := "hi" } : LLMMessage),
           { role := "system", content := "be brief" }].map (fun m => (m.role, m.content)) ∧
     (ollamaPayload "gpt-4o-mini" [{ role := "user", content := "hi" },
        { role := "system", content := "be brief" }] {}).messages =
          [({ role := "user", content := "hi" } : LLMMessage),
           { role := "system", content := "be brief" }].map (fun m => (m.role, m.content))) := by
  refine ⟨rfl, by simp, by simp, ?_⟩
  have h := C5_system_message_placement [{ role := "user", content := "hi" }] []
    { role := "system", content := "be brief" } rfl (by simp) (by simp) (by simp)
    "gpt-4o-mini" {}
  exact ⟨h.1, h.2.1, h.2.2.1, h.2.2.2.1, h.2.2.2.2.1, h.2.2.2.2.2⟩

/-- Helper: fresh-key insertion appends. -/
theorem dictInsert_fresh {α : Type} (d : List (String × α)) (k : String) (v : α)
    (h : ∀ p ∈ d, p.1 ≠ k) : dictInsert d k v = d ++ [(k, v)] := by
  have : d.any (fun p => p.1 = k) = false := by
    rw [List.any_eq_false]
    intro p hp
    simpa using h p hp
  simp [dictInsert, this]

/-- Helper: with distinct agent names none of which collides with the
accumulated results, the sequential loop appends exactly one entry per
agent, in order, each the interpretation of that agent's own invocation. -/
theorem run_sequential_shape (behavior : AgentBehavior) :
    ∀ (agents : List String) (ctx : List (String × CtxVal))
      (results : List (String × AgentResult)),
      agents.Nodup → (∀ a ∈ agents, ∀ p ∈ results, p.1 ≠ a) →
      ∃ tail : List (String × AgentResult),
        (run_sequential behavior agents ctx results).1 = results ++ tail ∧
        tail.map Prod.fst = agents ∧
        ∀ q ∈ tail, ∃ inp : SeqInput, q.2 = interpOutcome (behavior q.1 inp) := by
  intro agents
  induction agents with
  | nil =>
    intro ctx results _ _
    exact ⟨[], by simp [run_sequential], rfl, by simp⟩
  | cons name rest ih =>
    intro ctx results hnd hfresh
    have hname : ∀ p ∈ results, p.1 ≠ name := fun p hp => hfresh name (by simp) p hp
    have hnd' : rest.Nodup := (List.nodup_cons.mp hnd).2
    have hnotmem : name ∉ rest := (List.nodup_cons.mp hnd).1
    set res := interpOutcome (behavior name (seqInput ctx results)) with hres
    have hins := dictInsert_fresh results name res hname
    have hfresh' : ∀ a ∈ rest, ∀ p ∈ results ++ [(name, res)], p.1 ≠ a := by
      intro a ha p hp
      rcases List.mem_append.mp hp with hp1 | hp2
      · exact hfresh a (by simp [ha]) p hp1
      · have hpn : p = (name, res) := by simpa using hp2
        subst hpn
        intro hcontra
        have hna : name = a := hcontra
        exact hnotmem (hna ▸ ha)
    obtain ⟨tail, h1, h2, h3⟩ := ih
      (if res.success then dictInsert ctx (name ++ "_output") (.data res.data) else ctx)
      (results ++ [(name, res)]) hnd' hfresh'
    refine ⟨(name, res) :: tail, ?_, ?_, ?_⟩
    · show (run_sequential behavior (name :: rest) ctx results).1 = _
      simp only [run_sequential]
      rw [← hres, hins, h1]
      simp
    · simp [h2]
    · intro q hq
      rcases List.mem_cons.mp hq with hq1 | hq2
      · exact ⟨seqInput ctx results, by rw [hq1]⟩
      · exact h3 q hq2

/-- Claim C6: in a sequential orchestrator run over distinct agents, every
agent in the list executes and contributes exactly one entry (a raised
exception is converted to a failed result for that agent only — the
remaining agents still run); overall success holds iff every recorded
result succeeded; and the error list carries exactly one
`"<name>: <error>"` entry per failing result. -/
theorem C6_sequential_pipeline (behavior : AgentBehavior) (task : String)
    (agents : List String) (initial_context : List (String × CtxVal)) (t0 t1 : ℚ)
    (hnd : agents.Nodup) :
    let pr := orchestrator_run_sequential behavior task agents initial_context t0 t1
    pr.results.map Prod.fst = agents ∧
    (pr.success = true ↔ ∀ p ∈ pr.results, p.2.success = true) ∧
    pr.errors = pr.results.filterMap (fun p =>
      if p.2.success then none else some (p.1 ++ ": " ++ pyOptStr p.2.error)) ∧
    (∀ q ∈ pr.results, ∃ inp : SeqInput, q.2 = interpOutcome (behavior q.1 inp)) := by
  intro pr
  obtain ⟨tail, h1, h2, h3⟩ := run_sequential_shape behavior agents
    (dictInsert initial_context "task" (.str task)) [] hnd (by simp)
  have hresults : pr.results = tail := by
    show (orchestrator_run_sequential behavior task agents initial_context t0 t1).results = tail
    simp only [orchestrator_run_sequential]
    rw [h1]
    simp
  have herr : pr.errors = tail.filterMap (fun p =>
      if p.2.success then none else some (p.1 ++ ": " ++ pyOptStr p.2.error)) := by
    show (orchestrator_run_sequential behavior task agents initial_context t0 t1).errors = _
    simp only [orchestrator_run_sequential]
    rw [h1]
    simp
  refine ⟨by rw [hresults, h2], ?_, by rw [herr, hresults], by rw [hresults]; exact h3⟩
  · have hsucc : pr.success = pr.errors.isEmpty := rfl
    rw [hsucc, herr, hresults, List.isEmpty_iff, List.filterMap_eq_nil_iff]
    constructor
    · intro h p hp
      have := h p hp
      by_cases hs : p.2.success = true
      · exact hs
      · simp [hs] at this
    · intro h p hp
      simp [h p hp]

theorem C6_witness :
    (["architect", "backend"] : List String).Nodup ∧
    (let pr := orchestrator_run_sequential c6Behavior "Build a service"
        ["architect", "backend"] [] 0 1
     pr.results.map Prod.fst = ["architect", "backend"] ∧
     (pr.success = true ↔ ∀ p ∈ pr.results, p.2.success = true) ∧
     pr.errors = pr.results.filterMap (fun p =>
       if p.2.success then none else some (p.1 ++ ": " ++ pyOptStr p.2.error)) ∧
     (∀ q ∈ pr.results, ∃ inp : SeqInput, q.2 = interpOutcome (c6Behavior q.1 inp))) :=
  ⟨by decide, C6_sequential_pipeline c6Behavior "Build a service" ["architect", "backend"]
    [] 0 1 (by decide)⟩

end AgentSpec
